import Mathlib

/-
  Verification of the S3 JSONL transformation service (src/main.py).

  The development shallowly embeds the two core components:
  - the per-stream reshaping functions and their dispatcher
    (transform_commits, transform_projects, transform_users,
    apply_transformations), and
  - the fetch/consolidate loop (fetch_and_transform_from_s3), with the
    object store modelled as explicit data (discovered partition paths,
    per-partition object listings, per-file line parse outcomes).

  Python values flowing through the code are modelled by the Json type
  below.  Python dicts appear as ordered field lists with first-match
  lookup (dicts produced by json.loads have unique keys, so the match
  policy is immaterial); dict.get with no default is modelled as
  returning Json.null, mirroring None.  JSON numbers are modelled as
  integers: no claim depends on float arithmetic.
-/

mutual
inductive Json where
  | null
  | bool (b : Bool)
  | num (n : Int)
  | str (s : String)
  | arr (elts : JsonList)
  | obj (fields : JsonFields)
deriving DecidableEq, Repr
inductive JsonList where
  | nil
  | cons (hd : Json) (tl : JsonList)
deriving DecidableEq, Repr
inductive JsonFields where
  | nil
  | cons (k : String) (v : Json) (tl : JsonFields)
deriving DecidableEq, Repr
end

/-- Build a field list from a plain list of key/value pairs. -/
def fieldsOf : List (String × Json) → JsonFields
  | [] => .nil
  | (k, v) :: rest => .cons k v (fieldsOf rest)

def JsonList.ofList : List Json → JsonList
  | [] => .nil
  | j :: rest => .cons j (JsonList.ofList rest)

def JsonList.toList : JsonList → List Json
  | .nil => []
  | .cons j rest => j :: JsonList.toList rest

def JsonList.isNil : JsonList → Bool
  | .nil => true
  | .cons _ _ => false

def JsonFields.isNil : JsonFields → Bool
  | .nil => true
  | .cons _ _ _ => false

/-- Python dict.get k (default None): value of the first field named k, Json.null if absent. -/
def JsonFields.get : JsonFields → String → Json
  | .nil, _ => .null
  | .cons k v rest, key => if k = key then v else JsonFields.get rest key

/-- Python dict.get k d with an explicit default. -/
def JsonFields.getD : JsonFields → String → Json → Json
  | .nil, _, d => d
  | .cons k v rest, key, d => if k = key then v else JsonFields.getD rest key d

/-- Python `k in dict`. -/
def JsonFields.hasKey : JsonFields → String → Bool
  | .nil, _ => false
  | .cons k _ rest, key => k = key || JsonFields.hasKey rest key

/-- Python truthiness of a JSON value: None, False, 0, "", [], {} are falsy. -/
def Json.truthy : Json → Bool
  | .null => false
  | .bool b => b
  | .num n => n != 0
  | .str s => !s.data.isEmpty
  | .arr es => !es.isNil
  | .obj fs => !fs.isNil

/-- Python `a or b`: a if a is truthy, else b. -/
def pyOr (a b : Json) : Json := if a.truthy then a else b

/-- Whether a Python value can be hashed (set membership): lists and dicts cannot. -/
def Json.hashable : Json → Bool
  | .arr _ => false
  | .obj _ => false
  | _ => true

/-- Field of an output record (the record is always an object). -/
def jfield (j : Json) (k : String) : Json :=
  match j with
  | .obj fs => fs.get k
  | _ => .null

/-- The per-record reshaping done in the transform_commits loop body
    (src/main.py lines 28-44), field for field in source order. -/
def mkCommit (c : JsonFields) : Json :=
  .obj (fieldsOf
    [("id", c.get "id"),
     ("short_id", c.get "short_id"),
     ("title", c.get "title"),
     ("message", c.get "message"),
     ("author", .obj (fieldsOf
        [("name", c.get "author_name"), ("email", c.get "author_email")])),
     ("committer", .obj (fieldsOf
        [("name", c.get "committer_name"), ("email", c.get "committer_email")])),
     ("created_at", pyOr (c.get "authored_date") (c.get "created_at")),
     ("committed_at", c.get "committed_date"),
     ("url", c.get "web_url")])

/-- transform_commits (src/main.py lines 17-47): loop over the input list,
    skipping non-dict entries, appending the reshaped record otherwise.
    (The early `if not commits_data: return []` is the empty-list case of
    this recursion.) -/
def transform_commits : List Json → List Json
  | [] => []
  | .obj c :: rest => mkCommit c :: transform_commits rest
  | _ :: rest => transform_commits rest

/-- Namespace resolution in transform_projects (src/main.py lines 60-64):
    name sub-field when the namespace value is a dict, the value itself when
    a string, None otherwise. -/
def namespaceName (p : JsonFields) : Json :=
  match p.get "namespace" with
  | .obj nf => nf.get "name"
  | .str s => .str s
  | _ => .null

/-- The per-record reshaping done in the transform_projects loop body
    (src/main.py lines 66-76). -/
def mkProject (p : JsonFields) : Json :=
  .obj (fieldsOf
    [("id", p.get "id"),
     ("name", p.get "name"),
     ("path_with_namespace", p.get "path_with_namespace"),
     ("url", p.get "web_url"),
     ("namespace", namespaceName p),
     ("created_at", p.get "created_at"),
     ("updated_at", pyOr (p.get "last_activity_at") (p.get "updated_at")),
     ("visibility", p.get "visibility"),
     ("description", pyOr (p.get "description_html") (p.getD "description" (.str "")))])

/-- transform_projects (src/main.py lines 49-79). -/
def transform_projects : List Json → List Json
  | [] => []
  | .obj p :: rest => mkProject p :: transform_projects rest
  | _ :: rest => transform_projects rest

/-- The per-record reshaping done in the transform_users loop body
    (src/main.py lines 96-102). -/
def mkUser (u : JsonFields) : Json :=
  .obj (fieldsOf
    [("id", u.get "id"),
     ("username", u.get "username"),
     ("name", u.get "name"),
     ("url", u.get "web_url"),
     ("avatar_url", u.get "avatar_url")])

/-- Loop of transform_users (src/main.py lines 89-103) with the seen_ids
    set threaded explicitly.  `if user_id and user_id not in seen_ids`
    first tests truthiness; the membership test hashes user_id and raises
    TypeError on an unhashable (list/dict) id, which aborts the whole
    transform: that outcome is the none result. -/
def usersGo : List Json → List Json → Option (List Json)
  | [], _ => some []
  | .obj u :: rest, seen =>
      let uid := u.get "id"
      if uid.truthy then
        if uid.hashable then
          if uid ∈ seen then usersGo rest seen
          else Option.map (fun out => mkUser u :: out) (usersGo rest (uid :: seen))
        else none
      else usersGo rest seen
  | _ :: rest, seen => usersGo rest seen

/-- transform_users (src/main.py lines 81-105); none models the function
    raising (only possible via an unhashable id). -/
def transform_users (l : List Json) : Option (List Json) := usersGo l []

/-- Body of the apply_transformations loop for one stream entry
    (src/main.py lines 114-133): non-list values pass through; the three
    known stream names dispatch to their reshaping function; unknown
    names pass through; a raising reshaping function (only transform_users
    can raise) falls back to the original list. -/
def transformStream (stream_name : String) (stream_data : Json) : Json :=
  match stream_data with
  | .arr es =>
      if stream_name = "commits" then .arr (JsonList.ofList (transform_commits es.toList))
      else if stream_name = "projects" then .arr (JsonList.ofList (transform_projects es.toList))
      else if stream_name = "users" then
        match transform_users es.toList with
        | some out => .arr (JsonList.ofList out)
        | none => .arr es
      else .arr es
  | v => v

/-- apply_transformations (src/main.py lines 107-135).  The Python loop
    inserts one entry per input dict key into a fresh dict; since dict keys
    are unique and iteration preserves insertion order, this is an
    entrywise map.  (`if not data: return {}` is the empty case.) -/
def apply_transformations (data : List (String × Json)) : List (String × Json) :=
  data.map (fun p => (p.1, transformStream p.1 p.2))

/-- First-match association lookup (used to read one stream out of a
    consolidated mapping in theorem statements). -/
def alistGet {α : Type} : List (String × α) → String → Option α
  | [], _ => none
  | (k, v) :: rest, key => if k = key then some v else alistGet rest key

/- ----------------------------------------------------------------------
   Fetch side (fetch_and_transform_from_s3, src/main.py lines 143-221).
   The object store is modelled as data: the delimiter listing yields a
   list of partition paths; each path maps to a flat object listing; each
   object carries its key and the outcome of reading and line-splitting
   its body.  A line is either empty (skipped by `if line:`), a
   successfully parsed JSON value, or a json.loads failure.
   ---------------------------------------------------------------------- -/

inductive Line where
  | empty
  | ok (j : Json)
  | bad
deriving DecidableEq, Repr

/-- One S3 object: its key and its content as parsed lines; none models a
    get_object/read/decode failure (caught by the per-file handler). -/
structure S3Object where
  key : String
  body : Option (List Line)
deriving DecidableEq, Repr

/-- The modelled store state: the partition paths the delimiter listing
    discovers under the configured base path, and the object listing for
    each partition path. -/
structure Bucket where
  streamPaths : List String
  objectsFor : List (String × List S3Object)
deriving DecidableEq, Repr

/-- Request body (S3Config, src/main.py lines 10-14). -/
structure S3Config where
  aws_access_key_id : String
  aws_secret_access_key : String
  s3_bucket_name : String
  s3_bucket_path : String
deriving DecidableEq, Repr

/-- fastapi.HTTPException as raised by the fetch code. -/
structure HTTPException where
  status_code : Nat
  detail : String
deriving DecidableEq, Repr

/-- Does the char list start with the pattern. -/
def startsWithCL : List Char → List Char → Bool
  | _, [] => true
  | [], _ :: _ => false
  | a :: as, b :: bs => a == b && startsWithCL as bs

/-- Python str.endswith, executably on the underlying char lists. -/
def strEndsWith (s pat : String) : Bool :=
  startsWithCL s.data.reverse pat.data.reverse

/-- Python s.split, specialised to the "/" delimiter, on char lists:
    every chunk is kept, including empty ones. -/
def splitSlash : List Char → List Char → List (List Char)
  | [], cur => [cur.reverse]
  | c :: rest, cur =>
      if c == '/' then cur.reverse :: splitSlash rest [] else splitSlash rest (c :: cur)

def strSplitSlash (s : String) : List String :=
  (splitSlash s.data []).map String.mk

/-- Python substring test (`pat in s` for strings). -/
def containsCL : List Char → List Char → Bool
  | [], pat => pat.isEmpty
  | c :: rest, pat => startsWithCL (c :: rest) pat || containsCL rest pat

/-- `path.split('/')[-2]` (src/main.py line 186).  A delimiter listing
    returns partition paths that end in "/" and extend the base path, so
    the split always has at least two chunks; on a pathological path with
    no "/" at all (where Python would raise IndexError) the model returns
    the empty string.  No claim exercises that case. -/
def streamNameOfPath (p : String) : String :=
  ((strSplitSlash p).reverse.get? 1).getD ""

/-- One parsed line becomes a record (src/main.py lines 211-217):
    a dict is unwrapped from the _airbyte_data envelope when the key is
    present, else kept whole; `'_airbyte_data' in record` on a non-dict
    either is False (list without that string element; string without that
    substring), after which the whole record is kept, or raises TypeError
    (hashable scalars; the indexing after a successful membership test),
    which the per-file handler turns into skipping the rest of the file:
    that outcome is none. -/
def stepRecord : Json → Option Json
  | .obj fs => some (if fs.hasKey "_airbyte_data" then fs.get "_airbyte_data" else .obj fs)
  | .arr es => if containsStrElem es "_airbyte_data" then none else some (.arr es)
  | .str s => if containsCL s.data "_airbyte_data".data then none else some (.str s)
  | _ => none
where
  containsStrElem : JsonList → String → Bool
    | .nil, _ => false
    | .cons (.str s2) rest, s => s2 = s || containsStrElem rest s
    | .cons _ rest, s => containsStrElem rest s

/-- The line loop inside the per-file try (src/main.py lines 209-217):
    records are appended to the stream list one line at a time; the first
    failing line raises into the per-file handler, which keeps everything
    appended so far and abandons the rest of the file. -/
def processFile : List Line → List Json → List Json
  | [], acc => acc
  | Line.empty :: rest, acc => processFile rest acc
  | Line.bad :: _, acc => acc
  | Line.ok j :: rest, acc =>
      match stepRecord j with
      | none => acc
      | some r => processFile rest (acc ++ [r])

/-- The records one file contributes on its own: the unwrapped records of
    the lines before the first failure (everything, if no line fails);
    nothing if the key does not end in .jsonl or the read itself failed. -/
def takeGood : List Line → List Json
  | [] => []
  | Line.empty :: rest => takeGood rest
  | Line.bad :: _ => []
  | Line.ok j :: rest =>
      match stepRecord j with
      | none => []
      | some r => r :: takeGood rest

def contribOf (o : S3Object) : List Json :=
  if strEndsWith o.key ".jsonl" then
    match o.body with
    | some lines => takeGood lines
    | none => []
  else []

/-- Body of the per-object loop (src/main.py lines 199-219): only .jsonl
    keys are read; a failed read leaves the accumulated records unchanged. -/
def streamStep (acc : List Json) (o : S3Object) : List Json :=
  if strEndsWith o.key ".jsonl" then
    match o.body with
    | some lines => processFile lines acc
    | none => acc
  else acc

/-- All records consolidated for one stream, in object-listing order then
    within-file line order. -/
def streamRecords (objs : List S3Object) : List Json :=
  objs.foldl streamStep []

/-- Python dict assignment d[k] = v: overwrite in place when the key
    exists, append otherwise. -/
def dictSet {α : Type} (d : List (String × α)) (k : String) (v : α) : List (String × α) :=
  if d.any (fun p => p.1 = k) then
    d.map (fun p => if p.1 = k then (k, v) else p)
  else d ++ [(k, v)]

/-- Detail string of the 404 raised when no partitions are found
    (src/main.py line 179), built without interpolation. -/
def noStreamsDetail (config : S3Config) : String :=
  "No stream directories found under the path '" ++
    (config.s3_bucket_path ++
      ("/' in bucket '" ++ (config.s3_bucket_name ++ "'.")))

/-- fetch_and_transform_from_s3 (src/main.py lines 143-221) after a
    successful client construction and delimiter listing (connection-phase
    failures - NoCredentialsError, NoSuchBucket, other ClientError - are
    environment outcomes outside the modelled store state and outside the
    claims).  Zero discovered partitions raise the 404; otherwise each
    partition is consolidated in listing order.  In the source the stream
    list is first set to [] and then extended in place file by file; the
    net dict update per partition is the final record list. -/
def fetch_and_transform_from_s3 (config : S3Config) (b : Bucket) :
    Except HTTPException (List (String × List Json)) :=
  if b.streamPaths.isEmpty then
    .error ⟨404, noStreamsDetail config⟩
  else
    .ok (b.streamPaths.foldl
      (fun acc path =>
        dictSet acc (streamNameOfPath path)
          (streamRecords ((alistGet b.objectsFor path).getD [])))
      [])

/- ----------------------------------------------------------------------
   Observation helpers used by theorem statements.
   ---------------------------------------------------------------------- -/

/-- The id of a (reshaped or raw) record: the id field of an object,
    null otherwise. -/
def idOf : Json → Json
  | .obj fs => fs.get "id"
  | _ => .null

/-- The field list of the first dict in the list whose id field has the
    given value. -/
def firstDictWithId (v : Json) : List Json → Option JsonFields
  | [] => none
  | .obj fs :: rest => if fs.get "id" = v then some fs else firstDictWithId v rest
  | _ :: rest => firstDictWithId v rest

/-- The reshaped records of all dicts with a truthy id, in input order
    (no deduplication): the pool the users transform selects from. -/
def userCandidates : List Json → List Json
  | [] => []
  | .obj fs :: rest =>
      if (fs.get "id").truthy then mkUser fs :: userCandidates rest
      else userCandidates rest
  | _ :: rest => userCandidates rest

/-- The needle occurs somewhere inside the haystack. -/
def occursIn (needle hay : String) : Prop :=
  ∃ a b : String, hay = a ++ (needle ++ b)

/- ----------------------------------------------------------------------
   Concrete inputs for counterexamples and witnesses.
   ---------------------------------------------------------------------- -/

def c1R1 : Json := Json.obj (fieldsOf [("id", Json.num 1)])
def c1R2 : Json := Json.obj (fieldsOf [("id", Json.num 2)])
def c1R3 : Json := Json.obj (fieldsOf [("id", Json.num 3)])
def c1R9 : Json := Json.obj (fieldsOf [("id", Json.num 9)])

def c1Config : S3Config :=
  ⟨"AKIAEXAMPLE", "SECRETEXAMPLE", "bkt", "base"⟩

/-- Stream alpha has a file whose second line fails to parse (with a good
    third line after it) and a sibling file; stream beta has one good file. -/
def c1Bucket : Bucket :=
  { streamPaths := ["base/alpha/", "base/beta/"]
  , objectsFor :=
      [("base/alpha/",
         [⟨"base/alpha/f1.jsonl", some [Line.ok c1R1, Line.bad, Line.ok c1R9]⟩,
          ⟨"base/alpha/f2.jsonl", some [Line.ok c1R2]⟩]),
       ("base/beta/",
         [⟨"base/beta/g1.jsonl", some [Line.ok c1R3]⟩])] }

def c1Actual : List (String × List Json) :=
  [("alpha", [c1R1, c1R2]), ("beta", [c1R3])]

def c5Inner : Json := Json.obj (fieldsOf [("id", Json.str "abc"), ("title", Json.str "t")])
def c5Wrapped : Json :=
  Json.obj (fieldsOf [("_airbyte_ab_id", Json.str "uuid-1"), ("_airbyte_data", c5Inner)])
def c5Raw : Json := Json.obj (fieldsOf [("id", Json.str "def")])

def c5Config : S3Config :=
  ⟨"AKIAEXAMPLE", "SECRETEXAMPLE", "bucket-a", "vapormedia"⟩

def c5Bucket : Bucket :=
  { streamPaths := ["vapormedia/commits/", "vapormedia/empty_stream/"]
  , objectsFor :=
      [("vapormedia/commits/",
         [⟨"vapormedia/commits/file_000.jsonl", some [Line.ok c5Wrapped, Line.ok c5Raw]⟩]),
       ("vapormedia/empty_stream/", [])] }

/-- A commit whose authored-date field is present but empty (falsy). -/
def c6Rec : JsonFields :=
  fieldsOf [("authored_date", Json.str ""), ("created_at", Json.str "2021-01-01T00:00:00Z")]

/-- A commit with a truthy authored-date field. -/
def c6W : JsonFields :=
  fieldsOf [("authored_date", Json.str "2019-05-05T00:00:00Z")]

/-- A project whose HTML-description field is present but empty (falsy). -/
def c7Rec : JsonFields :=
  fieldsOf [("description_html", Json.str ""), ("description", Json.str "plain text")]

/-- A project with a truthy HTML-description field. -/
def c7W : JsonFields :=
  fieldsOf [("description_html", Json.str "rich")]

def c3U1 : JsonFields := fieldsOf [("id", Json.num 1), ("username", Json.str "first")]
def c3U2 : JsonFields := fieldsOf [("id", Json.num 1), ("username", Json.str "second")]
def c3U3 : JsonFields := fieldsOf [("id", Json.num 2), ("username", Json.str "third")]
def c3NoId : JsonFields := fieldsOf [("username", Json.str "anon")]

/-- Duplicate id 1, a non-dict entry, a record with no id, a fresh id 2. -/
def c3Input : List Json :=
  [Json.obj c3U1, Json.obj c3U2, Json.num 7, Json.obj c3NoId, Json.obj c3U3]

def c3Output : List Json := [mkUser c3U1, mkUser c3U3]

def c10Zero : JsonFields := fieldsOf [("id", Json.num 0), ("username", Json.str "zero")]
def c10Five : JsonFields := fieldsOf [("id", Json.num 5), ("username", Json.str "five")]

def c10Input : List Json := [Json.obj c10Zero, Json.obj c10Five]
def c10Output : List Json := [mkUser c10Five]

/-- A users stream whose single record has a truthy but unhashable id
    (a non-empty list), which makes transform_users raise in Python. -/
def c4BadUsers : JsonList :=
  .cons (Json.obj (fieldsOf [("id", Json.arr (.cons (Json.num 1) .nil))])) .nil

def c4Data : List (String × Json) :=
  [("users", Json.arr c4BadUsers), ("commits", Json.arr .nil)]

def c8Config : S3Config :=
  ⟨"AKIAEXAMPLE", "SECRETEXAMPLE", "mybucket", "mypath"⟩

def c8Bucket : Bucket := ⟨[], []⟩

def c9Issues : JsonList :=
  .cons (Json.obj (fieldsOf [("id", Json.num 11), ("weird_field", Json.null)]))
    (.cons (Json.str "free-form") .nil)

def c9Data : List (String × Json) := [("issues", Json.arr c9Issues)]

/- ----------------------------------------------------------------------
   Helper lemmas.
   ---------------------------------------------------------------------- -/

theorem idOf_mkUser (fs : JsonFields) : idOf (mkUser fs) = fs.get "id" := rfl

theorem get_eq_null_of_hasKey_false :
    ∀ (fs : JsonFields) (k : String), fs.hasKey k = false → fs.get k = Json.null
  | .nil, _, _ => rfl
  | .cons k2 v rest, k, h => by
      simp only [JsonFields.hasKey, Bool.or_eq_false_iff, decide_eq_false_iff_not] at h
      simp [JsonFields.get, h.1, get_eq_null_of_hasKey_false rest k h.2]

theorem getD_eq_get_of_hasKey :
    ∀ (fs : JsonFields) (k : String) (d : Json), fs.hasKey k = true → fs.getD k d = fs.get k
  | .nil, k, d, h => by simp [JsonFields.hasKey] at h
  | .cons k2 v rest, k, d, h => by
      by_cases hk : k2 = k
      · simp [JsonFields.getD, JsonFields.get, hk]
      · simp only [JsonFields.hasKey, Bool.or_eq_true, decide_eq_true_eq] at h
        rcases h with h | h
        · exact absurd h hk
        · simp [JsonFields.getD, JsonFields.get, hk, getD_eq_get_of_hasKey rest k d h]

theorem getD_eq_default_of_hasKey_false :
    ∀ (fs : JsonFields) (k : String) (d : Json), fs.hasKey k = false → fs.getD k d = d
  | .nil, _, _, _ => rfl
  | .cons k2 v rest, k, d, h => by
      simp only [JsonFields.hasKey, Bool.or_eq_false_iff, decide_eq_false_iff_not] at h
      simp [JsonFields.getD, h.1, getD_eq_default_of_hasKey_false rest k d h.2]

theorem processFile_eq_append (lines : List Line) (acc : List Json) :
    processFile lines acc = acc ++ takeGood lines := by
  induction lines generalizing acc with
  | nil => simp [processFile, takeGood]
  | cons hd rest ih =>
    cases hd with
    | empty => simp [processFile, takeGood, ih]
    | bad => simp [processFile, takeGood]
    | ok j =>
      cases h : stepRecord j with
      | none => simp [processFile, takeGood, h]
      | some r => simp [processFile, takeGood, h, ih]

theorem streamStep_eq (acc : List Json) (o : S3Object) :
    streamStep acc o = acc ++ contribOf o := by
  rcases o with ⟨key, body⟩
  by_cases h : strEndsWith key ".jsonl"
  · cases body with
    | none => simp [streamStep, contribOf, h]
    | some lines => simp [streamStep, contribOf, h, processFile_eq_append]
  · simp [streamStep, contribOf, h]

theorem foldl_streamStep (objs : List S3Object) (acc : List Json) :
    objs.foldl streamStep acc = acc ++ (objs.map contribOf).flatten := by
  induction objs generalizing acc with
  | nil => simp
  | cons o rest ih => simp [List.foldl_cons, streamStep_eq, ih]

/- ----------------------------------------------------------------------
   Claim theorems.
   ---------------------------------------------------------------------- -/

/-- C2: for every input mapping, the transformed mapping has exactly the
    input's stream-name keys, in the same order: no stream is dropped and
    none is added. -/
theorem apply_transformations_preserves_stream_keys (data : List (String × Json)) :
    (apply_transformations data).map Prod.fst = data.map Prod.fst := by
  induction data with
  | nil => rfl
  | cons p rest ih => simp [apply_transformations] at ih ⊢

/-- C5: on a bucket whose base path holds partitions commits/ (one .jsonl
    file with a wrapped line and a bare line) and empty_stream/ (no
    objects), fetch returns exactly the mapping sending commits to the
    unwrapped record followed by the raw record, and empty_stream to the
    empty list (the key is present). -/
theorem fetch_concrete_envelope_and_empty_stream :
    fetch_and_transform_from_s3 c5Config c5Bucket =
      .ok [("commits", [c5Inner, c5Raw]), ("empty_stream", [])] := rfl

/-- C9: a stream name outside the dispatch table (commits, projects,
    users) passes its list value through structurally unchanged, both at
    the dispatch level and inside a full mapping. -/
theorem unknown_stream_passthrough (n : String) (es : JsonList)
    (data : List (String × Json))
    (h1 : n ≠ "commits") (h2 : n ≠ "projects") (h3 : n ≠ "users") :
    transformStream n (Json.arr es) = Json.arr es ∧
    ((n, Json.arr es) ∈ data → (n, Json.arr es) ∈ apply_transformations data) := by
  have hstep : transformStream n (Json.arr es) = Json.arr es := by
    simp [transformStream, h1, h2, h3]
  refine ⟨hstep, fun hmem => ?_⟩
  have : (n, transformStream n (Json.arr es)) ∈ apply_transformations data :=
    List.mem_map.mpr ⟨(n, Json.arr es), hmem, rfl⟩
  rwa [hstep] at this

theorem unknown_stream_passthrough_witness :
    ("issues" : String) ≠ "commits" ∧
    transformStream "issues" (Json.arr c9Issues) = Json.arr c9Issues ∧
    ("issues", Json.arr c9Issues) ∈ apply_transformations c9Data := by
  have h := unknown_stream_passthrough "issues" c9Issues c9Data
    (by decide) (by decide) (by decide)
  exact ⟨by decide, h.1, h.2 (by simp [c9Data])⟩

/-- C4: the transformer is a total function (it is defined for every
    mapping and every entry of the input reappears, transformed by its own
    dispatch alone, in the output - per-stream isolation), and when the
    selected reshaping function raises (in this code only transform_users
    can raise, via an unhashable id; transform_commits and
    transform_projects contain no raising operation) the dispatch falls
    back to the original unreshaped list for that stream. -/
theorem apply_transformations_fault_isolation
    (data : List (String × Json)) (k : String) (v : Json) (es : JsonList)
    (hraise : transform_users es.toList = none) :
    ((k, v) ∈ data → (k, transformStream k v) ∈ apply_transformations data) ∧
    transformStream "users" (Json.arr es) = Json.arr es := by
  constructor
  · exact fun hmem => List.mem_map.mpr ⟨(k, v), hmem, rfl⟩
  · simp [transformStream, hraise]

theorem apply_transformations_fault_isolation_witness :
    transform_users c4BadUsers.toList = none ∧
    transformStream "users" (Json.arr c4BadUsers) = Json.arr c4BadUsers ∧
    ("commits", transformStream "commits" (Json.arr .nil)) ∈ apply_transformations c4Data := by
  have h := apply_transformations_fault_isolation c4Data "commits" (Json.arr .nil)
    c4BadUsers rfl
  exact ⟨rfl, h.2, h.1 (by simp [c4Data])⟩

/-- C8: when the delimiter listing discovers zero partitions, fetch fails
    with a 404 whose detail names both the configured path and the bucket
    name. -/
theorem fetch_no_partitions_404 (config : S3Config) (b : Bucket)
    (h : b.streamPaths = []) :
    fetch_and_transform_from_s3 config b =
      .error ⟨404, noStreamsDetail config⟩ ∧
    occursIn config.s3_bucket_path (noStreamsDetail config) ∧
    occursIn config.s3_bucket_name (noStreamsDetail config) := by
  refine ⟨by simp [fetch_and_transform_from_s3, h], ?_, ?_⟩
  · exact ⟨"No stream directories found under the path '",
      "/' in bucket '" ++ (config.s3_bucket_name ++ "'."), rfl⟩
  · refine ⟨"No stream directories found under the path '" ++
      (config.s3_bucket_path ++ "/' in bucket '"), "'.", ?_⟩
    simp [noStreamsDetail, String.append_assoc]

/-- Invariant of the users loop: every retained record has a truthy id
    not in the seen set, its fields are those of the first input dict
    carrying that id, the retained ids are pairwise distinct, and the
    output is an order-preserving selection from the reshaped records of
    the dicts with truthy ids. -/
theorem usersGo_spec :
    ∀ (l seen out : List Json), usersGo l seen = some out →
      (∀ r ∈ out, (idOf r).truthy = true ∧ idOf r ∉ seen ∧
        ∃ fs, firstDictWithId (idOf r) l = some fs ∧ r = mkUser fs) ∧
      (out.map idOf).Nodup ∧
      out.Sublist (userCandidates l)
  | [], seen, out, h => by
      simp only [usersGo, Option.some.injEq] at h
      subst h
      simp [userCandidates]
  | Json.null :: rest, seen, out, h => usersGo_spec rest seen out h
  | Json.bool b :: rest, seen, out, h => usersGo_spec rest seen out h
  | Json.num n :: rest, seen, out, h => usersGo_spec rest seen out h
  | Json.str s :: rest, seen, out, h => usersGo_spec rest seen out h
  | Json.arr es :: rest, seen, out, h => usersGo_spec rest seen out h
  | Json.obj u :: rest, seen, out, h => by
      by_cases ht : (u.get "id").truthy = true
      · by_cases hh : (u.get "id").hashable = true
        · by_cases hm : u.get "id" ∈ seen
          · -- duplicate id: the record is skipped
            have h' : usersGo rest seen = some out := by
              simpa [usersGo, ht, hh, hm] using h
            have ih := usersGo_spec rest seen out h'
            refine ⟨fun r hr => ?_, ih.2.1, ?_⟩
            · obtain ⟨htr, hsr, fs, hf, he⟩ := ih.1 r hr
              have hne : ¬ (u.get "id" = idOf r) := fun e => hsr (e ▸ hm)
              exact ⟨htr, hsr, fs, by simpa [firstDictWithId, hne] using hf, he⟩
            · have hc : userCandidates (Json.obj u :: rest) =
                  mkUser u :: userCandidates rest := by
                simp [userCandidates, ht]
              rw [hc]
              exact ih.2.2.cons _
          · -- fresh id: the record is retained
            have h' : Option.map (fun o => mkUser u :: o)
                (usersGo rest (u.get "id" :: seen)) = some out := by
              simpa [usersGo, ht, hh, hm] using h
            cases hrec : usersGo rest (u.get "id" :: seen) with
            | none => rw [hrec] at h'; simp at h'
            | some out' =>
                rw [hrec] at h'
                simp only [Option.map_some', Option.some.injEq] at h'
                subst h'
                have ih := usersGo_spec rest (u.get "id" :: seen) out' hrec
                refine ⟨fun r hr => ?_, ?_, ?_⟩
                · rcases List.mem_cons.mp hr with rfl | hr'
                  · refine ⟨by rw [idOf_mkUser]; exact ht,
                      by rw [idOf_mkUser]; exact hm, u, ?_, rfl⟩
                    rw [idOf_mkUser]
                    simp [firstDictWithId]
                  · obtain ⟨htr, hsr, fs, hf, he⟩ := ih.1 r hr'
                    have hne : ¬ (u.get "id" = idOf r) := by
                      intro e
                      exact hsr (by rw [← e]; exact List.mem_cons_self _ _)
                    refine ⟨htr, fun hs => hsr (List.mem_cons_of_mem _ hs),
                      fs, by simpa [firstDictWithId, hne] using hf, he⟩
                · simp only [List.map_cons, idOf_mkUser, List.nodup_cons]
                  refine ⟨?_, ih.2.1⟩
                  intro hmem
                  obtain ⟨r, hr, he⟩ := List.mem_map.mp hmem
                  exact (ih.1 r hr).2.1 (by rw [he]; exact List.mem_cons_self _ _)
                · have hc : userCandidates (Json.obj u :: rest) =
                      mkUser u :: userCandidates rest := by
                    simp [userCandidates, ht]
                  rw [hc]
                  exact ih.2.2.cons₂ _
        · -- truthy but unhashable id: the transform raises, no output
          simp [usersGo, ht, hh] at h
      · -- falsy or absent id: the record is skipped
        have h' : usersGo rest seen = some out := by
          simpa [usersGo, ht] using h
        have ih := usersGo_spec rest seen out h'
        refine ⟨fun r hr => ?_, ih.2.1, ?_⟩
        · obtain ⟨htr, hsr, fs, hf, he⟩ := ih.1 r hr
          have hne : ¬ (u.get "id" = idOf r) := by
            intro e
            rw [e, htr] at ht
            exact ht rfl
          exact ⟨htr, hsr, fs, by simpa [firstDictWithId, hne] using hf, he⟩
        · have hc : userCandidates (Json.obj u :: rest) = userCandidates rest := by
            simp [userCandidates, ht]
          rw [hc]
          exact ih.2.2

/-- C3: when the users transform returns (it raises only on an unhashable
    id), no two output records share an id, no record with a missing id is
    retained, every retained record is the reshaping of the first input
    dict carrying its id (first occurrence wins, so duplicates and
    already-seen ids are dropped), and the output preserves the input
    order of those first occurrences. -/
theorem transform_users_dedup_first_occurrence (l out : List Json)
    (h : transform_users l = some out) :
    (out.map idOf).Nodup ∧
    (∀ r ∈ out, idOf r ≠ Json.null) ∧
    (∀ r ∈ out, ∃ fs, firstDictWithId (idOf r) l = some fs ∧ r = mkUser fs) ∧
    out.Sublist (userCandidates l) := by
  have hs := usersGo_spec l [] out h
  refine ⟨hs.2.1, fun r hr => ?_, fun r hr => (hs.1 r hr).2.2, hs.2.2⟩
  have htr := (hs.1 r hr).1
  intro e
  rw [e] at htr
  simp [Json.truthy] at htr

theorem transform_users_dedup_first_occurrence_witness :
    transform_users c3Input = some c3Output ∧
    ((c3Output.map idOf).Nodup ∧
     (∀ r ∈ c3Output, idOf r ≠ Json.null) ∧
     (∀ r ∈ c3Output, ∃ fs, firstDictWithId (idOf r) c3Input = some fs ∧ r = mkUser fs) ∧
     c3Output.Sublist (userCandidates c3Input)) :=
  ⟨rfl, transform_users_dedup_first_occurrence c3Input c3Output rfl⟩

/-- C10: when the users transform returns, every retained record has a
    truthy id, so a record whose id field is present but falsy (0, "",
    false, null, empty list or dict) is dropped exactly like a record
    with no id field; in particular a user with id 0 never appears. -/
theorem transform_users_drops_falsy_ids (l out : List Json) (fs : JsonFields)
    (h : transform_users l = some out) :
    (∀ r ∈ out, (idOf r).truthy = true) ∧
    ((fs.get "id").truthy = false → mkUser fs ∉ out) ∧
    (fs.get "id" = Json.num 0 → mkUser fs ∉ out) := by
  have hs := usersGo_spec l [] out h
  have h1 : ∀ r ∈ out, (idOf r).truthy = true := fun r hr => (hs.1 r hr).1
  have h2 : (fs.get "id").truthy = false → mkUser fs ∉ out := by
    intro hf hmem
    have := h1 _ hmem
    rw [idOf_mkUser, hf] at this
    cases this
  refine ⟨h1, h2, fun h0 => h2 ?_⟩
  rw [h0]
  simp [Json.truthy]

theorem transform_users_drops_falsy_ids_witness :
    transform_users c10Input = some c10Output ∧
    (c10Zero.get "id").truthy = false ∧
    mkUser c10Zero ∉ c10Output :=
  ⟨rfl, rfl,
    (transform_users_drops_falsy_ids c10Input c10Output c10Zero rfl).2.1 rfl⟩

theorem fetch_no_partitions_404_witness :
    c8Bucket.streamPaths = [] ∧
    (fetch_and_transform_from_s3 c8Config c8Bucket =
      .error ⟨404, noStreamsDetail c8Config⟩ ∧
     occursIn c8Config.s3_bucket_path (noStreamsDetail c8Config) ∧
     occursIn c8Config.s3_bucket_name (noStreamsDetail c8Config)) :=
  ⟨rfl, fetch_no_partitions_404 c8Config c8Bucket rfl⟩

/-- C6 fails as stated: in this record the authored-date field is present
    (with the falsy value "") yet the output created_at is the created-date
    value, not the authored-date value, because the source uses Python
    `or`, which tests truthiness rather than presence. -/
theorem commits_created_at_falsy_cex :
    c6Rec.hasKey "authored_date" = true ∧
    c6Rec.get "authored_date" = Json.str "" ∧
    transform_commits [Json.obj c6Rec] = [mkCommit c6Rec] ∧
    jfield (mkCommit c6Rec) "created_at" = Json.str "2021-01-01T00:00:00Z" ∧
    jfield (mkCommit c6Rec) "created_at" ≠ c6Rec.get "authored_date" :=
  ⟨rfl, rfl, rfl, rfl, by decide⟩

/-- C6 (amended): for every input record, created_at equals the
    authored-date field when that field is present with a truthy value,
    else the created-date field value; when both fields are absent,
    created_at is null. -/
theorem commits_created_at_sourcing (c : JsonFields) (l : List Json) :
    transform_commits (Json.obj c :: l) = mkCommit c :: transform_commits l ∧
    ((c.get "authored_date").truthy = true →
      jfield (mkCommit c) "created_at" = c.get "authored_date") ∧
    ((c.get "authored_date").truthy = false →
      jfield (mkCommit c) "created_at" = c.get "created_at") ∧
    (c.hasKey "authored_date" = false → c.hasKey "created_at" = false →
      jfield (mkCommit c) "created_at" = Json.null) := by
  have hfield : jfield (mkCommit c) "created_at" =
      pyOr (c.get "authored_date") (c.get "created_at") := rfl
  refine ⟨rfl, fun h1 => ?_, fun h1 => ?_, fun h1 h2 => ?_⟩
  · rw [hfield]
    simp [pyOr, h1]
  · rw [hfield]
    simp [pyOr, h1]
  · rw [hfield, get_eq_null_of_hasKey_false c _ h1, get_eq_null_of_hasKey_false c _ h2]
    simp [pyOr, Json.truthy]

theorem commits_created_at_sourcing_witness :
    (c6W.get "authored_date").truthy = true ∧
    jfield (mkCommit c6W) "created_at" = c6W.get "authored_date" :=
  ⟨rfl, (commits_created_at_sourcing c6W []).2.1 rfl⟩

/-- C7 fails as stated: in this record the HTML-description field is
    present (with the falsy value "") yet the output description is the
    plain description value, because the source uses Python `or`. -/
theorem projects_description_falsy_cex :
    c7Rec.hasKey "description_html" = true ∧
    c7Rec.get "description_html" = Json.str "" ∧
    transform_projects [Json.obj c7Rec] = [mkProject c7Rec] ∧
    jfield (mkProject c7Rec) "description" = Json.str "plain text" ∧
    jfield (mkProject c7Rec) "description" ≠ c7Rec.get "description_html" :=
  ⟨rfl, rfl, rfl, rfl, by decide⟩

/-- C7 (amended): for every input record, description equals the
    HTML-description field when that field is present with a truthy value,
    else the plain description field value when that key is present, else
    the empty string. -/
theorem projects_description_sourcing (p : JsonFields) (l : List Json) :
    transform_projects (Json.obj p :: l) = mkProject p :: transform_projects l ∧
    ((p.get "description_html").truthy = true →
      jfield (mkProject p) "description" = p.get "description_html") ∧
    ((p.get "description_html").truthy = false → p.hasKey "description" = true →
      jfield (mkProject p) "description" = p.get "description") ∧
    ((p.get "description_html").truthy = false → p.hasKey "description" = false →
      jfield (mkProject p) "description" = Json.str "") := by
  have hfield : jfield (mkProject p) "description" =
      pyOr (p.get "description_html") (p.getD "description" (.str "")) := rfl
  refine ⟨rfl, fun h1 => ?_, fun h1 h2 => ?_, fun h1 h2 => ?_⟩
  · rw [hfield]
    simp [pyOr, h1]
  · rw [hfield]
    simp only [pyOr, h1, if_false, Bool.false_eq_true]
    exact getD_eq_get_of_hasKey p _ _ h2
  · rw [hfield]
    simp only [pyOr, h1, if_false, Bool.false_eq_true]
    exact getD_eq_default_of_hasKey_false p _ _ h2

theorem projects_description_sourcing_witness :
    (c7W.get "description_html").truthy = true ∧
    jfield (mkProject c7W) "description" = c7W.get "description_html" :=
  ⟨rfl, (projects_description_sourcing c7W []).2.1 rfl⟩

/-- C1 fails as stated: in this bucket the file f1 of stream alpha fails
    to parse on its second line, yet fetch emits its first-line record
    c1R1 (the per-file loop appends records line by line before the
    failure is caught), so the file contributes one record, not zero.
    Sibling file f2 and stream beta are still processed. -/
theorem fetch_first_line_emitted_cex :
    fetch_and_transform_from_s3 c1Config c1Bucket = .ok c1Actual ∧
    alistGet c1Actual "alpha" = some [c1R1, c1R2] ∧
    c1R1 ∈ [c1R1, c1R2] :=
  ⟨rfl, rfl, by decide⟩

/-- C1 (amended): a stream consolidates the concatenation of independent
    per-file contributions (one failing file never affects sibling files
    or other streams), and a file that fails to parse on its second line
    contributes exactly its first-line record: records parsed before the
    failing line are emitted, the failing line and everything after it in
    that file are not. -/
theorem fetch_partial_file_contribution (objs : List S3Object)
    (j r : Json) (rest : List Line) (key : String)
    (hstep : stepRecord j = some r) :
    streamRecords objs = (objs.map contribOf).flatten ∧
    takeGood (Line.ok j :: Line.bad :: rest) = [r] ∧
    (strEndsWith key ".jsonl" = true →
      contribOf ⟨key, some (Line.ok j :: Line.bad :: rest)⟩ = [r]) := by
  refine ⟨?_, ?_, fun hk => ?_⟩
  · simpa using foldl_streamStep objs []
  · simp [takeGood, hstep]
  · simp [contribOf, hk, takeGood, hstep]

theorem fetch_partial_file_contribution_witness :
    stepRecord c1R1 = some c1R1 ∧
    strEndsWith "base/alpha/f1.jsonl" ".jsonl" = true ∧
    contribOf ⟨"base/alpha/f1.jsonl", some [Line.ok c1R1, Line.bad]⟩ = [c1R1] :=
  ⟨rfl, rfl,
    (fetch_partial_file_contribution [] c1R1 c1R1 [] "base/alpha/f1.jsonl" rfl).2.2 rfl⟩
